import Mathlib

/-!
Shallow embedding of the edugen front-end (TypeScript/React) pieces that the
specification's testable properties talk about: the student-submission
controller (load assignment, answer map, submit/grade), the assignment-list
filter, the API client's failure policy, and the session-store read.

Network calls (axios) are modelled as oracle functions passed in as
parameters: a call either yields a parsed response (`Except.ok`) or
throws/rejects (`Except.error`).  Browser `localStorage` is modelled as an
association list from key strings to value strings.  JS objects used as
string-keyed records (the Answer Map) are modelled as insertion-ordered
association lists, with JS assignment semantics (`obj[k] = v` keeps the
position of an existing key, appends a fresh key at the end).
-/

/-- From `types.ts`: `enum AssignmentType`. -/
inductive AssignmentType
  | MCQ
  | WRITTEN
  | PROJECT
deriving DecidableEq

/-- From `types.ts`: `enum Difficulty`. -/
inductive Difficulty
  | EASY
  | MEDIUM
  | HARD
deriving DecidableEq

/-- From `types.ts`: `interface Question`. -/
structure Question where
  id : String
  text : String
  options : Option (List String) := none
  correctAnswer : Option String := none
  rubric : Option String := none
deriving DecidableEq

/-- From `types.ts`: `interface Assignment`.  The `status` field is a string
literal union in TypeScript and is compared with `===` against the (arbitrary
string) status filter, so it is modelled as `String`. -/
structure Assignment where
  id : String
  title : String
  subject : String
  type : AssignmentType
  difficulty : Difficulty
  questions : List Question
  createdAt : String
  dueDate : String
  status : String
deriving DecidableEq

/-- The grading response body `{ score, feedback }` (a Feedback record). -/
structure Feedback where
  score : Int
  feedback : String
deriving DecidableEq

/-- The user record read back from the session store (`user.id` is the only
field the submission flow consumes). -/
structure SessionUser where
  id : Nat
deriving DecidableEq

/-- JS object assignment `m[key] = value` on a string-keyed record: if the
key is already present its value is replaced in place, otherwise the new
entry is appended at the end (JS insertion order). -/
def recordSet (m : List (String × String)) (key value : String) :
    List (String × String) :=
  if m.any (fun p => p.1 == key) then
    m.map (fun p => if p.1 == key then (p.1, value) else p)
  else
    m ++ [(key, value)]

/-- From `AssignmentsList.tsx`, `handleLoadAssignment`: the seeding loop
`data.questions.forEach((q) => initialAnswers[q.id] = "")` starting from the
empty record. -/
def seedAnswers (qs : List Question) : List (String × String) :=
  qs.foldl (fun m q => recordSet m q.id "") []

/-- From `AssignmentsList.tsx`, `handleAnswerChange`: the functional update
`setAnswers(prev => ({...prev, [questionId]: value}))`. -/
def handleAnswerChange (m : List (String × String)) (questionId value : String) :
    List (String × String) :=
  recordSet m questionId value

lemma recordSet_not_mem (m : List (String × String)) (k v : String)
    (h : ∀ p ∈ m, p.1 ≠ k) : recordSet m k v = m ++ [(k, v)] := by
  have hc : ¬ (m.any (fun p => p.1 == k) = true) := by
    simp only [List.any_eq_true, beq_iff_eq]
    rintro ⟨p, hp, hpk⟩
    exact h p hp hpk
  simp [recordSet, hc]

lemma seedAnswers_go (qs : List Question) :
    ∀ m : List (String × String),
      (qs.map Question.id).Nodup →
      (∀ q ∈ qs, ∀ p ∈ m, p.1 ≠ q.id) →
      qs.foldl (fun m q => recordSet m q.id "") m
        = m ++ qs.map (fun q => (q.id, "")) := by
  induction qs with
  | nil => intro m _ _; simp
  | cons q qs ih =>
    intro m hnd hdis
    have hstep : recordSet m q.id "" = m ++ [(q.id, "")] :=
      recordSet_not_mem m q.id "" (fun p hp => hdis q (by simp) p hp)
    have hnd2 : (∀ x ∈ qs, ¬ x.id = q.id) ∧ (qs.map Question.id).Nodup := by
      simpa using hnd
    have hnd' : (qs.map Question.id).Nodup := hnd2.2
    have hdis' : ∀ q2 ∈ qs, ∀ p ∈ m ++ [(q.id, "")], p.1 ≠ q2.id := by
      intro q2 hq2 p hp
      rcases List.mem_append.mp hp with hin | hin
      · exact hdis q2 (by simp [hq2]) p hin
      · have hpq : p = (q.id, "") := by simpa using hin
        subst hpq
        intro hcontra
        exact hnd2.1 q2 hq2 hcontra.symm
    calc (q :: qs).foldl (fun m q => recordSet m q.id "") m
        = qs.foldl (fun m q => recordSet m q.id "") (m ++ [(q.id, "")]) := by
          simp [List.foldl_cons, hstep]
      _ = (m ++ [(q.id, "")]) ++ qs.map (fun q => (q.id, "")) := ih _ hnd' hdis'
      _ = m ++ (q :: qs).map (fun q => (q.id, "")) := by simp

lemma seedAnswers_eq (qs : List Question) (h : (qs.map Question.id).Nodup) :
    seedAnswers qs = qs.map (fun q => (q.id, "")) := by
  have := seedAnswers_go qs [] h (by simp)
  simpa [seedAnswers] using this

/-- Claim C1: for every assignment with N questions (distinct question
identifiers, as a map keyed by question identifier presupposes), the load
step seeds the Answer Map with exactly N keys, one per question identifier,
each mapped to the empty string; with zero questions it produces the empty
map. -/
theorem answer_map_seeding (qs : List Question)
    (h : (qs.map Question.id).Nodup) :
    (seedAnswers qs).length = qs.length ∧
    (seedAnswers qs).map Prod.fst = qs.map Question.id ∧
    (∀ p ∈ seedAnswers qs, p.2 = "") ∧
    seedAnswers [] = [] := by
  rw [seedAnswers_eq qs h]
  refine ⟨by simp, by simp, ?_, by simp [seedAnswers]⟩
  intro p hp
  rcases List.mem_map.mp hp with ⟨q, _, rfl⟩
  rfl

/-- Witness for C1 at a concrete two-question assignment. -/
theorem answer_map_seeding_inst :
    (seedAnswers [⟨"q1", "t1", none, none, none⟩, ⟨"q2", "t2", none, none, none⟩]).length = 2 ∧
    (seedAnswers [⟨"q1", "t1", none, none, none⟩, ⟨"q2", "t2", none, none, none⟩]).map Prod.fst
      = ["q1", "q2"] ∧
    (∀ p ∈ seedAnswers [⟨"q1", "t1", none, none, none⟩, ⟨"q2", "t2", none, none, none⟩],
      p.2 = "") ∧
    seedAnswers [] = [] :=
  answer_map_seeding
    [⟨"q1", "t1", none, none, none⟩, ⟨"q2", "t2", none, none, none⟩] (by decide)

/-- From `AssignmentsList.tsx`, `handleSubmit`: the indexed map step
`Object.entries(answers).map(([qId, ans], idx) => "Q" + (idx+1) + ": " + ans)`
(a template literal), with `idx` the 0-based entry index. -/
def formatLines (idx : Nat) : List (String × String) → List String
  | [] => []
  | (_, ans) :: rest =>
      ("Q" ++ toString (idx + 1) ++ ": " ++ ans) :: formatLines (idx + 1) rest

/-- JS `Array.prototype.join(sep)`: empty array gives the empty string,
otherwise the elements interleaved with the separator. -/
def joinSep (sep : String) : List String → String
  | [] => ""
  | [s] => s
  | s :: t :: rest => s ++ sep ++ joinSep sep (t :: rest)

/-- From `AssignmentsList.tsx`, `handleSubmit`: the full flattening
`Object.entries(answers).map(...).join("\n\n")` of the Answer Map into the
single `answer_text` block sent to the grading endpoint. -/
def formatSubmission (answers : List (String × String)) : String :=
  joinSep "\n\n" (formatLines 0 answers)

/-- The flattening as the spec words it: one line per question, numbered
from `n` upward (the spec starts at 1) in map-entry order, consecutive lines
joined by a blank-line separator.  Stated separately from the source-derived
`formatSubmission` so the two can be compared. -/
def flattenSpec (n : Nat) : List (String × String) → String
  | [] => ""
  | [(_, ans)] => "Q" ++ toString n ++ ": " ++ ans
  | (_, ans) :: e2 :: rest =>
      "Q" ++ toString n ++ ": " ++ ans ++ "\n\n" ++ flattenSpec (n + 1) (e2 :: rest)

lemma joinSep_formatLines :
    ∀ (m : List (String × String)) (i : Nat),
      joinSep "\n\n" (formatLines i m) = flattenSpec (i + 1) m := by
  intro m
  induction m with
  | nil => intro i; rfl
  | cons e rest ih =>
    intro i
    rcases e with ⟨k, ans⟩
    cases rest with
    | nil => rfl
    | cons e2 rest2 =>
      rcases e2 with ⟨k2, ans2⟩
      show ("Q" ++ toString (i + 1) ++ ": " ++ ans) ++ "\n\n" ++
          joinSep "\n\n" (formatLines (i + 1) ((k2, ans2) :: rest2))
        = flattenSpec (i + 1) ((k, ans) :: (k2, ans2) :: rest2)
      rw [ih (i + 1)]
      rfl

/-- Claim C3: the submit step flattens the Answer Map into a single text
block with one line per question numbered from 1 in map-entry order, joined
by blank-line separators; in particular the map with entries q1 to A and q2
to B flattens to exactly the two-line block shown. -/
theorem flatten_answer_map :
    (∀ answers : List (String × String),
      formatSubmission answers = flattenSpec 1 answers) ∧
    formatSubmission [("q1", "A"), ("q2", "B")] = "Q1: A\n\nQ2: B" := by
  constructor
  · intro answers
    have := joinSep_formatLines answers 0
    simpa [formatSubmission] using this
  · decide

lemma recordSet_keys_of_mem (m : List (String × String)) (k v : String)
    (h : k ∈ m.map Prod.fst) :
    (recordSet m k v).map Prod.fst = m.map Prod.fst := by
  have hc : m.any (fun p => p.1 == k) = true := by
    simp only [List.any_eq_true, beq_iff_eq]
    rcases List.mem_map.mp h with ⟨p, hp, hpk⟩
    exact ⟨p, hp, hpk⟩
  simp only [recordSet, hc, if_true]
  clear hc h
  induction m with
  | nil => rfl
  | cons p t ih =>
    have hh : (if (p.1 == k) = true then (p.1, v) else p).1 = p.1 := by
      split <;> rfl
    simp only [List.map_cons, ih, hh]

lemma foldl_answer_changes_keys (updates : List (String × String)) :
    ∀ m : List (String × String),
      (∀ u ∈ updates, u.1 ∈ m.map Prod.fst) →
      (updates.foldl (fun acc u => handleAnswerChange acc u.1 u.2) m).map Prod.fst
        = m.map Prod.fst := by
  induction updates with
  | nil => intro m _; rfl
  | cons u us ih =>
    intro m h
    have hstep : (handleAnswerChange m u.1 u.2).map Prod.fst = m.map Prod.fst :=
      recordSet_keys_of_mem m u.1 u.2 (h u (by simp))
    have hrest : ∀ u2 ∈ us, u2.1 ∈ (handleAnswerChange m u.1 u.2).map Prod.fst := by
      intro u2 hu2
      rw [hstep]
      exact h u2 (by simp [hu2])
    calc ((u :: us).foldl (fun acc u => handleAnswerChange acc u.1 u.2) m).map Prod.fst
        = (us.foldl (fun acc u => handleAnswerChange acc u.1 u.2)
            (handleAnswerChange m u.1 u.2)).map Prod.fst := by
          simp [List.foldl_cons]
      _ = (handleAnswerChange m u.1 u.2).map Prod.fst := ih _ hrest
      _ = m.map Prod.fst := hstep

/-- Claim C9: after an assignment is loaded, every sequence of answer
updates whose keys are question identifiers of the loaded assignment (the
only updates the rendered questions can issue) leaves the key list of the
Answer Map exactly the seeded list of question identifiers: values change,
keys are never added or removed. -/
theorem answer_keys_invariant (qs : List Question)
    (hnd : (qs.map Question.id).Nodup)
    (updates : List (String × String))
    (hup : ∀ u ∈ updates, u.1 ∈ qs.map Question.id) :
    (updates.foldl (fun acc u => handleAnswerChange acc u.1 u.2)
        (seedAnswers qs)).map Prod.fst
      = qs.map Question.id := by
  have hkeys : (seedAnswers qs).map Prod.fst = qs.map Question.id := by
    rw [seedAnswers_eq qs hnd]
    simp
  have hup' : ∀ u ∈ updates, u.1 ∈ (seedAnswers qs).map Prod.fst := by
    intro u hu
    rw [hkeys]
    exact hup u hu
  rw [foldl_answer_changes_keys updates (seedAnswers qs) hup', hkeys]

/-- Witness for C9: two seeded questions, three updates to existing keys. -/
theorem answer_keys_invariant_inst :
    ([("q1", "first try"), ("q2", "x"), ("q1", "final")].foldl
        (fun acc u => handleAnswerChange acc u.1 u.2)
        (seedAnswers [⟨"q1", "t1", none, none, none⟩, ⟨"q2", "t2", none, none, none⟩])).map
        Prod.fst
      = ["q1", "q2"] :=
  answer_keys_invariant
    [⟨"q1", "t1", none, none, none⟩, ⟨"q2", "t2", none, none, none⟩]
    (by decide)
    [("q1", "first try"), ("q2", "x"), ("q1", "final")]
    (by decide)

/-- JS `String.prototype.toLowerCase()`, character by character (the titles,
subjects and search terms involved are plain text). -/
def jsToLower (s : String) : String :=
  ⟨s.data.map Char.toLower⟩

/-- Helper for `containsSub`: does the needle occur at the very front of the
haystack? -/
def startsWithL : List Char → List Char → Bool
  | [], _ => true
  | _ :: _, [] => false
  | a :: as, b :: bs => a == b && startsWithL as bs

/-- JS `String.prototype.includes` on character lists: the needle occurs at
the front, or somewhere in the tail. -/
def containsSub (hay ndl : List Char) : Bool :=
  match hay with
  | [] => startsWithL ndl []
  | _ :: t => startsWithL ndl hay || containsSub t ndl

/-- JS `hay.includes(ndl)` on strings. -/
def jsIncludes (hay ndl : String) : Bool :=
  containsSub hay.data ndl.data

/-- The spec-level substring relation: the needle appears contiguously
somewhere inside the haystack. -/
def isSubstring (ndl hay : List Char) : Prop :=
  ∃ pre post, hay = pre ++ ndl ++ post

/-- From `AssignmentsList.tsx`, `filteredAssignments`: the text predicate
`a.title.toLowerCase().includes(searchTerm.toLowerCase()) ||
a.subject.toLowerCase().includes(searchTerm.toLowerCase())`. -/
def matchesSearch (searchTerm : String) (a : Assignment) : Bool :=
  jsIncludes (jsToLower a.title) (jsToLower searchTerm) ||
    jsIncludes (jsToLower a.subject) (jsToLower searchTerm)

/-- From `AssignmentsList.tsx`, `filteredAssignments`: the status predicate
`statusFilter === 'All' || a.status === statusFilter`. -/
def matchesStatus (statusFilter : String) (a : Assignment) : Bool :=
  statusFilter == "All" || a.status == statusFilter

/-- From `AssignmentsList.tsx`: the derived view
`assignments.filter(a => matchesSearch && matchesStatus)`. -/
def filteredAssignments (assignments : List Assignment)
    (searchTerm statusFilter : String) : List Assignment :=
  assignments.filter (fun a => matchesSearch searchTerm a && matchesStatus statusFilter a)

lemma startsWithL_iff (n : List Char) :
    ∀ h : List Char, startsWithL n h = true ↔ ∃ t, h = n ++ t := by
  induction n with
  | nil =>
    intro h
    simp [startsWithL]
  | cons a as ih =>
    intro h
    cases h with
    | nil =>
      simp [startsWithL]
    | cons b bs =>
      simp only [startsWithL, Bool.and_eq_true, beq_iff_eq, ih bs]
      constructor
      · rintro ⟨rfl, t, rfl⟩
        exact ⟨t, rfl⟩
      · rintro ⟨t, ht⟩
        have hb : a = b := by
          have := congrArg (fun l => List.head? l) ht
          simpa using this.symm
        have hbs : bs = as ++ t := by
          have := congrArg List.tail ht
          simpa using this
        exact ⟨hb, t, hbs⟩

lemma containsSub_nil (h : List Char) : containsSub h [] = true := by
  cases h <;> simp [containsSub, startsWithL]

lemma containsSub_iff (n : List Char) :
    ∀ h : List Char, containsSub h n = true ↔ isSubstring n h := by
  intro h
  induction h with
  | nil =>
    simp only [containsSub, startsWithL_iff, isSubstring]
    constructor
    · rintro ⟨t, ht⟩
      exact ⟨[], t, by simpa using ht⟩
    · rintro ⟨pre, post, hsplit⟩
      rcases List.append_eq_nil.mp (List.append_eq_nil.mp hsplit.symm).1 with ⟨hpre, hn⟩
      exact ⟨[], by simp [hn]⟩
  | cons c t ih =>
    simp only [containsSub, Bool.or_eq_true, startsWithL_iff, ih, isSubstring]
    constructor
    · rintro (⟨s, hs⟩ | ⟨pre, post, hsplit⟩)
      · exact ⟨[], s, by simpa using hs⟩
      · exact ⟨c :: pre, post, by simp [hsplit]⟩
    · rintro ⟨pre, post, hsplit⟩
      cases pre with
      | nil =>
        exact Or.inl ⟨post, by simpa using hsplit⟩
      | cons c2 pre2 =>
        have hc2 : c2 = c ∧ t = pre2 ++ n ++ post := by
          have hh := congrArg List.head? hsplit
          have htl := congrArg List.tail hsplit
          constructor
          · simpa using hh.symm
          · simpa using htl
        exact Or.inr ⟨pre2, post, hc2.2⟩

/-- Claim C7: filtering with empty search text and status All is the
identity, and in general the filtered view keeps exactly the items that
both contain the lowercased search text as a substring of the lowercased
title or subject, and have the selected status (any status when the
selection is All). -/
theorem assignment_filter_spec :
    (∀ items : List Assignment, filteredAssignments items "" "All" = items) ∧
    (∀ (items : List Assignment) (search status : String) (a : Assignment),
      a ∈ filteredAssignments items search status ↔
        a ∈ items ∧
        (isSubstring (jsToLower search).data (jsToLower a.title).data ∨
          isSubstring (jsToLower search).data (jsToLower a.subject).data) ∧
        (status = "All" ∨ a.status = status)) := by
  constructor
  · intro items
    apply List.filter_eq_self.mpr
    intro a _
    have hd : (jsToLower "").data = [] := rfl
    simp [matchesSearch, matchesStatus, jsIncludes, hd, containsSub_nil]
  · intro items search status a
    rw [filteredAssignments, List.mem_filter]
    simp only [Bool.and_eq_true, Bool.or_eq_true, matchesSearch, matchesStatus,
      jsIncludes, beq_iff_eq, containsSub_iff]

/-- Request body of `POST /assignments/generate` (from `geminiService.ts`,
`generateContent`). -/
structure GenerateRequest where
  topic : String
  type : AssignmentType
  difficulty : Difficulty

/-- Request body of `POST /student/grade` (from `geminiService.ts`,
`autoGradeSubmission`): `{ assignment_id, student_id, answer_text }`. -/
structure GradeRequest where
  assignment_id : String
  student_id : Nat
  answer_text : String
deriving DecidableEq

/-- From `geminiService.ts`, `generateContent`: posts the request and
returns `response.data`; the surrounding try/catch turns any thrown or
rejected call into the empty list.  The axios call is the oracle `post`. -/
def generateContent (post : GenerateRequest → Except Unit (List Question))
    (topic : String) (type : AssignmentType) (difficulty : Difficulty) :
    List Question :=
  match post ⟨topic, type, difficulty⟩ with
  | Except.ok qs => qs
  | Except.error _ => []

/-- From `geminiService.ts`, `autoGradeSubmission`: posts the grade request
and returns `response.data`; the try/catch turns any failure into the
sentinel `{ score: 0, feedback: "Error connecting to grading service." }`. -/
def autoGradeSubmission (post : GradeRequest → Except Unit Feedback)
    (assignmentId : String) (studentId : Nat) (answerText : String) : Feedback :=
  match post ⟨assignmentId, studentId, answerText⟩ with
  | Except.ok fb => fb
  | Except.error _ => ⟨0, "Error connecting to grading service."⟩

/-- Claim C5: whenever the underlying HTTP request throws or rejects,
`generateContent` returns the empty sequence; by its total return type no
exception reaches the caller. -/
theorem generate_failure_empty (post : GenerateRequest → Except Unit (List Question))
    (topic : String) (type : AssignmentType) (difficulty : Difficulty) (e : Unit)
    (h : post ⟨topic, type, difficulty⟩ = Except.error e) :
    generateContent post topic type difficulty = [] := by
  simp [generateContent, h]

/-- Witness for C5 with an always-rejecting transport. -/
theorem generate_failure_empty_inst :
    generateContent (fun _ => Except.error ()) "photosynthesis"
      AssignmentType.MCQ Difficulty.EASY = [] :=
  generate_failure_empty (fun _ => Except.error ()) "photosynthesis"
    AssignmentType.MCQ Difficulty.EASY () rfl

/-- Claim C6: whenever the underlying HTTP request throws or rejects, the
grade call returns the sentinel Feedback with score 0 and the fixed
fallback message; by its total return type no exception reaches the
caller. -/
theorem grade_failure_sentinel (post : GradeRequest → Except Unit Feedback)
    (assignmentId : String) (studentId : Nat) (answerText : String) (e : Unit)
    (h : post ⟨assignmentId, studentId, answerText⟩ = Except.error e) :
    autoGradeSubmission post assignmentId studentId answerText
      = ⟨0, "Error connecting to grading service."⟩ := by
  simp [autoGradeSubmission, h]

/-- Witness for C6 with an always-rejecting transport. -/
theorem grade_failure_sentinel_inst :
    autoGradeSubmission (fun _ => Except.error ()) "a1" 7 "Q1: hi"
      = ⟨0, "Error connecting to grading service."⟩ :=
  grade_failure_sentinel (fun _ => Except.error ()) "a1" 7 "Q1: hi" () rfl

/-- The NotFound-shaped failure of the assignment fetch. -/
inductive ApiError
  | NotFound
deriving DecidableEq

/-- Modelled from the spec: the repository's `getAssignment` is imported by
`AssignmentsList.tsx` and `part_000` from `services/geminiService`, but its
definition is not among the provided sources.  The spec states
`getAssignment(id) → Assignment`, failing with a NotFound-shaped error when
the identifier is unrecognized by the backend; the backend's catalogue is
modelled as a partial map from identifiers to assignments. -/
def getAssignment (backend : String → Option Assignment) (id : String) :
    Except ApiError Assignment :=
  match backend id with
  | some a => Except.ok a
  | none => Except.error ApiError.NotFound

/-- Claim C4: for every identifier, `getAssignment` either returns the
assignment the backend knows under that identifier, or fails with the
NotFound-shaped error exactly when the identifier is unrecognized. -/
theorem getAssignment_ok_or_notFound (backend : String → Option Assignment)
    (id : String) :
    (∃ a, backend id = some a ∧ getAssignment backend id = Except.ok a) ∨
    (backend id = none ∧ getAssignment backend id = Except.error ApiError.NotFound) := by
  cases hb : backend id with
  | some a => exact Or.inl ⟨a, rfl, by simp [getAssignment, hb]⟩
  | none => exact Or.inr ⟨rfl, by simp [getAssignment, hb]⟩

/-- From `authService.ts`: `localStorage.getItem(key)`, the session store
read (`null` becomes `none`). -/
def getItem (store : List (String × String)) (key : String) : Option String :=
  match store with
  | [] => none
  | (k, v) :: rest => if k = key then some v else getItem rest key

/-- From `authService.ts`, `getCurrentUser`:
`const user = localStorage.getItem('user'); return user ? JSON.parse(user) : null;`.
The truthiness test maps both `null` and the empty string to `null`;
`JSON.parse` on a present record is the oracle `parse`. -/
def getCurrentUser (parse : String → SessionUser)
    (store : List (String × String)) : Option SessionUser :=
  match getItem store "user" with
  | none => none
  | some s => if s = "" then none else some (parse s)

lemma getItem_eq_none (store : List (String × String)) (key : String)
    (h : ∀ v, (key, v) ∉ store) : getItem store key = none := by
  induction store with
  | nil => rfl
  | cons p rest ih =>
    rcases p with ⟨k, v⟩
    have hk : ¬ k = key := by
      intro hkey
      exact h v (by simp [hkey])
    simp only [getItem, hk, if_false]
    exact ih (fun v2 hv2 => h v2 (by simp [hv2]))

/-- Claim C10: the session-store read returns none whenever no user record
is stored under the `user` key, and otherwise returns the parsed stored
record (the stored value of a logged-in user is a nonempty JSON string);
the absent case is a plain `none`, not a failure. -/
theorem getCurrentUser_read (store : List (String × String))
    (parse : String → SessionUser) :
    ((∀ v, ("user", v) ∉ store) → getCurrentUser parse store = none) ∧
    (∀ s, getItem store "user" = some s → s ≠ "" →
      getCurrentUser parse store = some (parse s)) := by
  constructor
  · intro h
    simp [getCurrentUser, getItem_eq_none store "user" h]
  · intro s hs hne
    simp [getCurrentUser, hs, hne]

/-- Witness for C10: an empty store reads as none, and a store holding a
record under `user` reads back as the parsed record. -/
theorem getCurrentUser_read_inst :
    getCurrentUser (fun _ => ⟨7⟩) [] = none ∧
    getCurrentUser (fun _ => ⟨7⟩) [("token", "t"), ("user", "u-json")]
      = some ⟨7⟩ :=
  ⟨(getCurrentUser_read [] (fun _ => ⟨7⟩)).1 (by simp),
   (getCurrentUser_read [("token", "t"), ("user", "u-json")] (fun _ => ⟨7⟩)).2
     "u-json" rfl (by decide)⟩

/-- The Student Submission Controller's local state (from the `StudentPortal`
component in `AssignmentsList.tsx`): `step` (1 = Idle/Search, 2 = Loaded),
the typed-in identifier, the fetched assignment, the Answer Map, the
feedback, and the loading flag. -/
structure PortalState where
  step : Nat
  assignmentId : String
  assignmentData : Option Assignment
  answers : List (String × String)
  feedback : Option Feedback
  loading : Bool
deriving DecidableEq

/-- Outcome of one submit gesture: the next controller state, the grade
requests actually sent over the network, and the alerts shown. -/
structure SubmitResult where
  state : PortalState
  requests : List GradeRequest
  alerts : List String
deriving DecidableEq

/-- From `AssignmentsList.tsx`, `handleSubmit`: reads the session store; with
no logged-in user it alerts and returns before any network activity; with a
user it flattens the Answer Map, sends one grade request through
`autoGradeSubmission` (which never throws), stores the resulting feedback
and clears the loading flag. -/
def handleSubmit (store : List (String × String)) (parse : String → SessionUser)
    (post : GradeRequest → Except Unit Feedback) (s : PortalState) : SubmitResult :=
  match getCurrentUser parse store with
  | none => ⟨s, [], ["Please login first"]⟩
  | some u =>
      let formatted := formatSubmission s.answers
      let result := autoGradeSubmission post s.assignmentId u.id formatted
      ⟨{ s with feedback := some result, loading := false },
        [⟨s.assignmentId, u.id, formatted⟩], []⟩

/-- Claim C2: if the session store holds no logged-in user, submit performs
zero network calls and leaves every piece of controller state (assignment
data, answers, feedback, loading flag, step) unchanged; only an alert is
shown. -/
theorem submit_unauthenticated (store : List (String × String))
    (parse : String → SessionUser) (post : GradeRequest → Except Unit Feedback)
    (s : PortalState) (h : ∀ v, ("user", v) ∉ store) :
    handleSubmit store parse post s = ⟨s, [], ["Please login first"]⟩ := by
  simp [handleSubmit, getCurrentUser, getItem_eq_none store "user" h]

/-- Witness for C2: an empty session store, an arbitrary concrete state. -/
theorem submit_unauthenticated_inst :
    handleSubmit [] (fun _ => ⟨7⟩) (fun _ => Except.error ())
        ⟨2, "a1", none, [("q1", "A")], none, false⟩
      = ⟨⟨2, "a1", none, [("q1", "A")], none, false⟩, [], ["Please login first"]⟩ :=
  submit_unauthenticated [] (fun _ => ⟨7⟩) (fun _ => Except.error ())
    ⟨2, "a1", none, [("q1", "A")], none, false⟩ (by simp)

/-- Outcome of one load gesture: the next controller state, the identifiers
fetched from the backend, and the alerts shown. -/
structure LoadResult where
  state : PortalState
  requests : List String
  alerts : List String
deriving DecidableEq

/-- From `AssignmentsList.tsx`, `handleLoadAssignment`: an empty identifier
alerts and returns immediately; otherwise the trimmed identifier is fetched
(the oracle `fetch` is `getAssignment` against the backend), on success the
assignment is stored, the Answer Map is seeded and the step moves to 2, on
failure an alert is shown and nothing else changes; the `finally` clears
the loading flag on either fetched path. -/
def handleLoadAssignment (fetch : String → Except ApiError Assignment)
    (s : PortalState) : LoadResult :=
  if s.assignmentId = "" then ⟨s, [], ["Please enter an ID"]⟩
  else
    match fetch s.assignmentId.trim with
    | Except.ok data =>
        ⟨{ s with assignmentData := some data,
                  answers := seedAnswers data.questions,
                  step := 2,
                  loading := false },
          [s.assignmentId.trim], []⟩
    | Except.error _ =>
        ⟨{ s with loading := false }, [s.assignmentId.trim],
          ["Assignment not found! Check the ID."]⟩

/-- Claim C8: from the Idle/Search state, the load operation moves to the
Loaded step only on a successful fetch; an empty identifier or a fetch
failure leaves it in Idle with a user-facing alert, the held assignment
data and Answer Map untouched. -/
theorem load_transitions (fetch : String → Except ApiError Assignment)
    (s : PortalState) (hstep : s.step = 1) :
    (s.assignmentId = "" →
      handleLoadAssignment fetch s = ⟨s, [], ["Please enter an ID"]⟩) ∧
    (∀ a, s.assignmentId ≠ "" → fetch s.assignmentId.trim = Except.ok a →
      (handleLoadAssignment fetch s).state.step = 2 ∧
      (handleLoadAssignment fetch s).state.assignmentData = some a ∧
      (handleLoadAssignment fetch s).state.answers = seedAnswers a.questions) ∧
    (∀ e, s.assignmentId ≠ "" → fetch s.assignmentId.trim = Except.error e →
      (handleLoadAssignment fetch s).state.step = 1 ∧
      (handleLoadAssignment fetch s).state.assignmentData = s.assignmentData ∧
      (handleLoadAssignment fetch s).state.answers = s.answers ∧
      (handleLoadAssignment fetch s).alerts = ["Assignment not found! Check the ID."]) := by
  refine ⟨?_, ?_, ?_⟩
  · intro he
    simp [handleLoadAssignment, he]
  · intro a hne hok
    simp [handleLoadAssignment, hne, hok]
  · intro e hne herr
    simp [handleLoadAssignment, hne, herr, hstep]

/-- Witness for C8: the failure branch at a concrete Idle state whose fetch
rejects with NotFound. -/
theorem load_transitions_inst :
    (handleLoadAssignment (fun _ => Except.error ApiError.NotFound)
        ⟨1, "zz", none, [], none, false⟩).state.step = 1 ∧
    (handleLoadAssignment (fun _ => Except.error ApiError.NotFound)
        ⟨1, "zz", none, [], none, false⟩).state.assignmentData = none ∧
    (handleLoadAssignment (fun _ => Except.error ApiError.NotFound)
        ⟨1, "zz", none, [], none, false⟩).state.answers = [] ∧
    (handleLoadAssignment (fun _ => Except.error ApiError.NotFound)
        ⟨1, "zz", none, [], none, false⟩).alerts
      = ["Assignment not found! Check the ID."] :=
  (load_transitions (fun _ => Except.error ApiError.NotFound)
      ⟨1, "zz", none, [], none, false⟩ rfl).2.2
    ApiError.NotFound (by decide) rfl
